import Mathlib

/-!
Verification of the engagement-reply and content-acceptance subsystem of an
automated social-media content agent (a Python repository).  Each component is
shallowly embedded: text is a list of characters, wall-clock instants are exact
numbers (integers in seconds for the rate limiter, rationals for the 24-hour
price gate), and every external collaborator (the generation backend, the
social platform, the pseudo-random generator) is an explicit oracle argument.
Only ASCII inputs are exercised, so the ASCII-only case functions of Lean
coincide with the case functions of Python on everything we evaluate.
-/

set_option maxRecDepth 4000

/-! ## Text utilities (shared by several components) -/

/-- Text is modelled as a list of characters (Python code points). -/
abbrev Text := List Char

/-- Coerce a literal into the text representation. -/
def lit (s : String) : Text := s.data

/-- Python lower(): character-wise lowering (ASCII-faithful). -/
def lowerText (t : Text) : Text := t.map Char.toLower

/-- A regex word character: alphanumeric or underscore. -/
def isWordChar (c : Char) : Bool := c.isAlphanum || c = '_'

/-- Python strip(): drop leading and trailing whitespace. -/
def stripText (t : Text) : Text :=
  (t.dropWhile Char.isWhitespace).reverse.dropWhile Char.isWhitespace |>.reverse

/-- Python substring containment (the in operator on strings). -/
def containsSub (pat : Text) : Text → Bool
  | [] => pat.isEmpty
  | c :: rest => pat.isPrefixOf (c :: rest) || containsSub pat rest

/-- Accumulator for maximal runs of characters satisfying p (the tokenizer
behind both the word-set extraction and whitespace splitting). -/
def runsAux (p : Char → Bool) (cur : Text) : Text → List Text
  | [] => if cur.isEmpty then [] else [cur.reverse]
  | c :: rest =>
    if p c then runsAux p (c :: cur) rest
    else if cur.isEmpty then runsAux p [] rest
    else cur.reverse :: runsAux p [] rest

/-- All maximal runs of word characters: the matches of a word regex. -/
def wordTokens (t : Text) : List Text := runsAux isWordChar [] t

/-- Python split() with no argument: maximal runs of non-whitespace. -/
def splitWs (t : Text) : List Text := runsAux (fun c => !c.isWhitespace) [] t

/-! ## Shared reply rate limiter

Embedding of class SharedReplyRateLimiter.  Timestamps are integers in
seconds; one hour is 3600. -/

/-- State of the shared reply rate limiter: the configured hourly maximum and
the recorded reply timestamps. -/
structure SharedReplyRateLimiter where
  maxPerHour : Nat
  timestamps : List Int
deriving Repr, DecidableEq

/-- A fresh limiter with an empty timestamp window. -/
def SharedReplyRateLimiter.init (maxPerHour : Nat) : SharedReplyRateLimiter :=
  { maxPerHour := maxPerHour, timestamps := [] }

/-- The pruning step shared by every query: keep timestamps strictly newer
than one hour ago. -/
def SharedReplyRateLimiter.prune (st : SharedReplyRateLimiter) (now : Int) :
    SharedReplyRateLimiter :=
  { st with timestamps := st.timestamps.filter (fun ts => decide (ts > now - 3600)) }

/-- can_reply(): prune, then allow exactly when the window is below the
maximum; on refusal a human-readable reason is produced. -/
def SharedReplyRateLimiter.canReply (st : SharedReplyRateLimiter) (now : Int) :
    Bool × Option String × SharedReplyRateLimiter :=
  let st' := st.prune now
  if st'.timestamps.length ≥ st'.maxPerHour then
    let n := st'.timestamps.length
    let m := st'.maxPerHour
    (false, some s!"Reply rate limit reached ({n}/{m} in last hour)", st')
  else
    (true, none, st')

/-- record_reply(): append the current instant to the window. -/
def SharedReplyRateLimiter.recordReply (st : SharedReplyRateLimiter) (now : Int) :
    SharedReplyRateLimiter :=
  { st with timestamps := st.timestamps ++ [now] }

/-- get_remaining_quota(): prune, then the maximum minus the window size,
floored at zero (computed in the integers as in Python). -/
def SharedReplyRateLimiter.getRemainingQuota (st : SharedReplyRateLimiter) (now : Int) :
    Int × SharedReplyRateLimiter :=
  let st' := st.prune now
  (max 0 ((st'.maxPerHour : Int) - st'.timestamps.length), st')

/-- N synchronous record_reply() calls, all at the same instant. -/
def SharedReplyRateLimiter.recordN (st : SharedReplyRateLimiter) (now : Int) :
    Nat → SharedReplyRateLimiter
  | 0 => st
  | n + 1 => (st.recordN now n).recordReply now

/-! ## Price mention tracker

Embedding of class PriceMentionTracker.  Instants are rationals in seconds
(Python measures the gap with exact timedelta arithmetic and converts to
fractional hours by division). -/

/-- The sentinel returned by the loader when no mention was ever recorded:
datetime.min, i.e. 0001-01-01, far over 24 hours before any modern instant. -/
def pythonDatetimeMin : ℚ := -62135596800

/-- State of the price mention tracker: the instant of the last recorded
price mention (datetime.min when never recorded). -/
structure PriceMentionTracker where
  lastMentionTime : ℚ
deriving Repr, DecidableEq

/-- The tracker state loaded when the storage file has no record. -/
def PriceMentionTracker.fresh : PriceMentionTracker :=
  { lastMentionTime := pythonDatetimeMin }

/-- can_mention_price(): at least 24 hours (86400 seconds) elapsed. -/
def PriceMentionTracker.canMentionPrice (tr : PriceMentionTracker) (now : ℚ) : Bool :=
  decide (now - tr.lastMentionTime ≥ 86400)

/-- record_price_mention(): set the last mention instant to now. -/
def PriceMentionTracker.recordPriceMention (_tr : PriceMentionTracker) (now : ℚ) :
    PriceMentionTracker :=
  { lastMentionTime := now }

/-- get_time_until_next_allowed(): hours remaining, 0 once 24h have passed. -/
def PriceMentionTracker.getTimeUntilNextAllowed (tr : PriceMentionTracker) (now : ℚ) : ℚ :=
  let hoursPassed := (now - tr.lastMentionTime) / 3600
  if hoursPassed ≥ 24 then 0 else 24 - hoursPassed

/-! ## A small matcher for the fixed regular expressions of the source

Every regex in the validated code is a sequence of literal words, whitespace
runs, digit runs and optional single characters, possibly under an
alternation and word-boundary assertions; greedy matching never needs to
backtrack for these shapes because each repeated class is always followed by
a token that cannot start with a character of that class. -/

/-- One token of a source regex. -/
inductive Pat where
  | word (w : Text)
  | wsPlus
  | digitsPlus
  | digitsStar
  | optChar (c : Char)
  | optOf (cs : List Char)
deriving Repr

/-- Match a token sequence at the front of the text, returning the remaining
text on success (maximal munch on the repeated classes). -/
def matchSeq : List Pat → Text → Option Text
  | [], t => some t
  | Pat.word w :: ps, t =>
    if w.isPrefixOf t then matchSeq ps (t.drop w.length) else none
  | Pat.wsPlus :: ps, t =>
    if (t.takeWhile Char.isWhitespace).isEmpty then none
    else matchSeq ps (t.dropWhile Char.isWhitespace)
  | Pat.digitsPlus :: ps, t =>
    if (t.takeWhile Char.isDigit).isEmpty then none
    else matchSeq ps (t.dropWhile Char.isDigit)
  | Pat.digitsStar :: ps, t => matchSeq ps (t.dropWhile Char.isDigit)
  | Pat.optChar c :: ps, t =>
    match t with
    | d :: rest => if d = c then matchSeq ps rest else matchSeq ps t
    | [] => matchSeq ps []
  | Pat.optOf cs :: ps, t =>
    match t with
    | d :: rest => if cs.contains d then matchSeq ps rest else matchSeq ps t
    | [] => matchSeq ps []

/-- re.search with no boundary assertions: some alternative matches at some
position. -/
def scanAnywhere (alts : List (List Pat)) : Text → Bool
  | [] => alts.any (fun ps => (matchSeq ps []).isSome)
  | c :: rest =>
    alts.any (fun ps => (matchSeq ps (c :: rest)).isSome) || scanAnywhere alts rest

/-- The character after a match satisfies the trailing word boundary. -/
def boundaryAfter : Text → Bool
  | [] => true
  | d :: _ => !isWordChar d

/-- re.search for a pattern wrapped in word boundaries: some alternative
matches at a position whose predecessor is absent or a non-word character,
and whose successor is absent or a non-word character. -/
def scanBounded (alts : List (List Pat)) (prev : Option Char) : Text → Bool
  | [] => false
  | c :: rest =>
    ((match prev with
      | none => true
      | some p => !isWordChar p) &&
     alts.any (fun ps =>
       match matchSeq ps (c :: rest) with
       | some rem => boundaryAfter rem
       | none => false))
    || scanBounded alts (some c) rest

/-! ## Tweet critic

Embedding of TweetCritic.critique_tweet.  The raw response of the critique
backend is the oracle input: none models both an empty response and a raised
exception (both return the default score 7 in the source). -/

/-- Python split(sep)[1]: the segment strictly between the first and second
occurrence of the separator (or up to the end when there is no second one).
Returns the segment after dropping the first separator occurrence. -/
def afterFirstSeg (pat : Text) : Text → Text
  | [] => []
  | c :: rest =>
    if pat.isPrefixOf (c :: rest) then (c :: rest).drop pat.length
    else afterFirstSeg pat rest

/-- Cut a text at the next occurrence of the separator. -/
def upToNext (pat : Text) : Text → Text
  | [] => []
  | c :: rest =>
    if pat.isPrefixOf (c :: rest) then []
    else c :: upToNext pat rest

/-- Numeric value of a digit string (the parse can only see digits). -/
def digitsToNat (ds : Text) : Nat :=
  ds.foldl (fun a c => a * 10 + (c.toNat - '0'.toNat)) 0

/-- critique_tweet, reduced to the score it yields: default 7 on a missing
response, a response without a Score: tag, or a tag line without digits;
otherwise the first two digit characters of the tag line, clamped to 1..10. -/
def critiqueTweetScore (resp : Option Text) : Nat :=
  match resp with
  | none => 7
  | some r =>
    if containsSub (lit "Score:") r then
      let seg := upToNext (lit "Score:") (afterFirstSeg (lit "Score:") r)
      let line := seg.takeWhile (fun c => c ≠ '\n')
      let digits := (line.filter Char.isDigit).take 2
      if digits.isEmpty then 7
      else max 1 (min 10 (digitsToNat digits))
    else 7

/-! ## Content validator

Embedding of ContentValidator.validate and its helpers, with the configured
maxima as explicit parameters (settings default: 280 and 3). -/

/-- Validator configuration (MAX_TWEET_LENGTH, MAX_HASHTAGS). -/
structure ValidatorCfg where
  maxLength : Nat := 280
  maxHashtags : Nat := 3
deriving Repr, DecidableEq

/-- count_hashtags: the number of regex matches of a hash sign followed by a
word-character run, equivalently the positions holding a hash sign whose
successor is a word character (a word run never contains a hash sign, so
these positions are exactly the non-overlapping match starts). -/
def countHashtags : Text → Nat
  | '#' :: c :: rest => (if isWordChar c then 1 else 0) + countHashtags (c :: rest)
  | _ :: rest => countHashtags rest
  | [] => 0

/-- Profanity check (word-bounded alternation, case-insensitive: run on the
lowered text). -/
def prohibitedProfanity (l : Text) : Bool :=
  scanBounded [[Pat.word (lit "fuck")], [Pat.word (lit "shit")], [Pat.word (lit "damn")]]
    none l

/-- Urgency/FOMO phrasing check (word-bounded two-word alternation). -/
def prohibitedUrgency (l : Text) : Bool :=
  scanBounded
    ((["buy", "sell", "moon", "wen"].map fun w1 =>
      (["now", "immediately"].map fun w2 =>
        [Pat.word (lit w1), Pat.wsPlus, Pat.word (lit w2)])).flatten)
    none l

/-- Price-prediction check: will, whitespace, hit or reach or go-to,
whitespace, a dollar amount (no boundary assertions in the source regex). -/
def prohibitedPrediction (l : Text) : Bool :=
  scanAnywhere
    [[Pat.word (lit "will"), Pat.wsPlus, Pat.word (lit "hit"), Pat.wsPlus,
      Pat.word (lit "$"), Pat.digitsPlus],
     [Pat.word (lit "will"), Pat.wsPlus, Pat.word (lit "reach"), Pat.wsPlus,
      Pat.word (lit "$"), Pat.digitsPlus],
     [Pat.word (lit "will"), Pat.wsPlus, Pat.word (lit "go"), Pat.wsPlus,
      Pat.word (lit "to"), Pat.wsPlus, Pat.word (lit "$"), Pat.digitsPlus]]
    l

/-- Return-promise check: a digit run, x, whitespace, gain or profit or
return. -/
def prohibitedReturns (l : Text) : Bool :=
  scanAnywhere
    (["gain", "profit", "return"].map fun w =>
      [Pat.digitsPlus, Pat.word (lit "x"), Pat.wsPlus, Pat.word (lit w)])
    l

/-- Guarantee check: a plain substring alternation. -/
def prohibitedGuarantee (l : Text) : Bool :=
  containsSub (lit "guaranteed") l || containsSub (lit "promise") l ||
    containsSub (lit "definitely will") l

/-- A character the URL-extraction regex accepts after the scheme: the class
union in the source collapses to alphanumerics, the exclamation mark and the
ASCII band 0x24-0x5F. -/
def urlChar (c : Char) : Bool :=
  c.isAlphanum || c = '!' || (0x24 ≤ c.toNat && c.toNat ≤ 0x5F)

/-- re.findall of the URL pattern: non-overlapping maximal scheme-plus-run
matches, scanning left to right. -/
def extractUrls : Text → List Text
  | [] => []
  | c :: rest =>
    if (lit "https://").isPrefixOf (c :: rest) &&
        !(((c :: rest).drop 8).takeWhile urlChar).isEmpty then
      (lit "https://" ++ ((c :: rest).drop 8).takeWhile urlChar) ::
        extractUrls (((c :: rest).drop 8).dropWhile urlChar)
    else if (lit "http://").isPrefixOf (c :: rest) &&
        !(((c :: rest).drop 7).takeWhile urlChar).isEmpty then
      (lit "http://" ++ ((c :: rest).drop 7).takeWhile urlChar) ::
        extractUrls (((c :: rest).drop 7).dropWhile urlChar)
    else extractUrls rest
termination_by t => t.length
decreasing_by
  · have h1 : (((c :: rest).drop 8).dropWhile urlChar).length ≤ ((c :: rest).drop 8).length :=
      (List.dropWhile_sublist urlChar).length_le
    have h2 : ((c :: rest).drop 8).length = (c :: rest).length - 8 := List.length_drop 8 _
    simp only [List.length_cons] at *
    omega
  · have h1 : (((c :: rest).drop 7).dropWhile urlChar).length ≤ ((c :: rest).drop 7).length :=
      (List.dropWhile_sublist urlChar).length_le
    have h2 : ((c :: rest).drop 7).length = (c :: rest).length - 7 := List.length_drop 7 _
    simp only [List.length_cons] at *
    omega
  · simp

/-- The bare-IP test applied to one extracted URL. -/
def urlIsBareIp (u : Text) : Bool :=
  scanAnywhere
    [[Pat.word (lit "http://"), Pat.digitsPlus, Pat.word (lit "."), Pat.digitsPlus,
      Pat.word (lit "."), Pat.digitsPlus, Pat.word (lit "."), Pat.digitsPlus],
     [Pat.word (lit "https://"), Pat.digitsPlus, Pat.word (lit "."), Pat.digitsPlus,
      Pat.word (lit "."), Pat.digitsPlus, Pat.word (lit "."), Pat.digitsPlus]]
    u

/-- The shortener-domain denylist of the source (the t.co entry is dead: the
loop body excludes it explicitly). -/
def suspiciousDomains : List String := ["bit.ly", "tinyurl.com", "t.co"]

/-- _contains_suspicious_urls: some extracted URL is a bare IP address or
contains a denylisted domain other than t.co. -/
def containsSuspiciousUrls (content : Text) : Bool :=
  (extractUrls content).any fun u =>
    urlIsBareIp u ||
      suspiciousDomains.any fun d =>
        decide (d ≠ "t.co") && containsSub (lit d) (lowerText u)

/-- validate: collect the error list (the financial-keyword scan of the
source only logs a warning and contributes no error, so it is omitted) and
succeed exactly when it is empty. -/
def validate (cfg : ValidatorCfg) (content : Text) : Bool × List String :=
  let l := lowerText content
  let e1 := if content.length > cfg.maxLength then
    [s!"Content exceeds max length"] else []
  let e2 := if (stripText content).isEmpty then ["Content is empty"] else []
  let e3 := if countHashtags content > cfg.maxHashtags then
    [s!"Too many hashtags"] else []
  let e4 := (if prohibitedProfanity l then ["Content contains prohibited pattern: profanity"] else []) ++
    (if prohibitedUrgency l then ["Content contains prohibited pattern: urgency"] else []) ++
    (if prohibitedPrediction l then ["Content contains prohibited pattern: prediction"] else []) ++
    (if prohibitedReturns l then ["Content contains prohibited pattern: returns"] else []) ++
    (if prohibitedGuarantee l then ["Content contains prohibited pattern: guarantee"] else [])
  let e5 := if containsSuspiciousUrls content then ["Content contains suspicious URLs"] else []
  let errors := e1 ++ e2 ++ e3 ++ e4 ++ e5
  (errors.isEmpty, errors)

/-! ## Near-duplicate detection

Embedding of ContentGenerator._is_too_similar: word-set overlap against each
recent tweet (stop words excluded) and exact three-word shingle matching.
The float division of the source is modelled exactly in the rationals; at
tweet-sized word counts the rounded float comparison against 0.6 agrees with
the exact one. -/

/-- The common-word stop list of the source. -/
def stopWords : List Text :=
  (["the", "a", "an", "and", "or", "but", "in", "on", "at", "to", "for", "of",
    "is", "are", "was", "were"]).map lit

/-- Case-folded word set of a text minus the stop words. -/
def meaningfulWords (t : Text) : List Text :=
  ((wordTokens (lowerText t)).dedup).filter (fun w => !stopWords.contains w)

/-- Consecutive three-word windows of a word list, joined by one space. -/
def shinglesAux : List Text → List Text
  | a :: b :: c :: rest => (a ++ ' ' :: (b ++ ' ' :: c)) :: shinglesAux (b :: c :: rest)
  | _ => []

/-- The three-word phrases of a text (case-folded, whitespace-split). -/
def shingles3 (t : Text) : List Text := shinglesAux (splitWs (lowerText t))

/-- The body of the comparison loop for one historical tweet: overlap ratio
above 0.6 (only computed when both meaningful sets are non-empty, as in the
source) or any shared three-word phrase. -/
def tooSimilarToOld (newC old : Text) : Bool :=
  let mNew := meaningfulWords newC
  let mOld := meaningfulWords old
  let overlapHit :=
    if !mNew.isEmpty && !mOld.isEmpty then
      decide ((((mNew.filter (fun w => mOld.contains w)).length : ℚ) / mNew.length) > 0.6)
    else false
  overlapHit || (shingles3 newC).any (fun p => (shingles3 old).contains p)

/-- _is_too_similar: the comparison loop over the recent-tweet history (the
early-out loop of the source is the disjunction over entries). -/
def isTooSimilar (recents : List Text) (newC : Text) : Bool :=
  recents.any (tooSimilarToOld newC)

/-- The near-duplicate criterion in the words of the specification: some
history entry has overlap ratio strictly above 0.6 (the case-folded
meaningful-word intersection over the size of the new meaningful-word set,
with rational division, which is 0 when the new set is empty) or shares a
three-consecutive-word phrase with the candidate. -/
def specNearDuplicate (recents : List Text) (newC : Text) : Prop :=
  ∃ old ∈ recents,
    (((meaningfulWords newC).filter (fun w => w ∈ meaningfulWords old)).length : ℚ) /
        ((meaningfulWords newC).length : ℚ) > 0.6 ∨
      ∃ p ∈ shingles3 newC, p ∈ shingles3 old

/-! ## Content generator acceptance pipeline

Embedding of ContentGenerator.generate_tweet.  Each loop attempt consumes an
oracle record holding what the generation backend and the critique backend
would answer; UTC calendar days are ordinal numbers (the source compares
equal-length date strings, whose ordering matches the day ordering). -/

/-- The emoji ranges stripped by _strip_emojis. -/
def isEmojiChar (c : Char) : Bool :=
  let n := c.toNat
  (0x1F600 ≤ n && n ≤ 0x1F64F) || (0x1F300 ≤ n && n ≤ 0x1F5FF) ||
  (0x1F680 ≤ n && n ≤ 0x1F6FF) || (0x1F1E0 ≤ n && n ≤ 0x1F1FF) ||
  (0x2702 ≤ n && n ≤ 0x27B0) || (0x24C2 ≤ n && n ≤ 0x1F251) ||
  (0x1F900 ≤ n && n ≤ 0x1F9FF) || (0x1FA00 ≤ n && n ≤ 0x1FA6F) ||
  (0x2600 ≤ n && n ≤ 0x26FF)

/-- _strip_emojis: delete every emoji character, then strip whitespace. -/
def stripEmojis (t : Text) : Text := stripText (t.filter (fun c => !isEmojiChar c))

/-- Drop one matching wrapping quote pair (startswith and endswith check,
then a [1:-1] slice). -/
def stripPairQuote (q : Char) (t : Text) : Text :=
  if t.head? = some q && t.getLast? = some q then (t.drop 1).dropLast else t

/-- The candidate clean-up of generate_tweet: strip, unwrap double then
single quotes, strip emojis. -/
def cleanupContent (raw : Text) : Text :=
  stripEmojis (stripPairQuote (Char.ofNat 39) (stripPairQuote '"' (stripText raw)))

/-- _contains_gm: the monitored catch-phrase as a standalone word,
case-insensitively. -/
def containsGm (t : Text) : Bool :=
  scanBounded [[Pat.word (lit "gm")]] none (lowerText t)

/-- The price keyword list of _contains_price_action. -/
def priceIndicators : List String :=
  ["price", "mcap", "market cap", "volume", "$0.", "cent", "dollar", "usd",
   "up", "down", "pump", "dump", "moon", "ath", "dip", "breakout",
   "chart", "candle", "support", "resistance", "buy", "bought", "sold", "bag"]

/-- The numeric price pattern of _contains_price_action: a dollar sign, a
digit run, an optional dot, an optional digit run and an optional magnitude
letter. -/
def pricePatternHit (l : Text) : Bool :=
  scanAnywhere
    [[Pat.word (lit "$"), Pat.digitsPlus, Pat.optChar '.', Pat.digitsStar,
      Pat.optOf ['m', 'k', 'b']]]
    l

/-- _contains_price_action: the subject token is mentioned together with a
price keyword or a numeric price pattern. -/
def containsPriceAction (t : Text) : Bool :=
  let l := lowerText t
  let hasPfp := containsSub (lit "$pfp") l || containsSub (lit "pfp") l
  let hasIndicator := priceIndicators.any (fun s => containsSub (lit s) l)
  hasPfp && (hasIndicator || pricePatternHit l)

/-- _track_tweet: append to the history, evicting the oldest entry beyond
capacity 10. -/
def trackTweet (recents : List Text) (c : Text) : List Text :=
  let r := recents ++ [c]
  if r.length > 10 then r.drop 1 else r

/-- Oracle record for one generation attempt: what the generation backend
returns for the candidate (none models an empty or failed generation) and
what the critique backend returns (none models a failed critique call). -/
structure Attempt where
  raw : Option Text
  critiqueResp : Option Text
deriving Repr

/-- Per-run configuration of the generation loop: whether a custom prompt is
used (skipping template context assembly), whether the learned-context file
holds usable conversations (in which case each attempt spends one extra
generation-backend call extracting insights), the current UTC day, the
current instant, and the validator configuration. -/
structure GenConfig where
  customPrompt : Bool
  hasLearnings : Bool
  today : Nat
  now : ℚ
  vcfg : ValidatorCfg

/-- Mutable generator state threaded through the acceptance pipeline. -/
structure GenState where
  lastGmDate : Option Nat
  recentTweets : List Text
  priceTracker : PriceMentionTracker

/-- The fresh generator state (last_gm_date None, empty history). -/
def GenState.fresh : GenState :=
  { lastGmDate := none, recentTweets := [],
    priceTracker := PriceMentionTracker.fresh }

/-- Outcome of one attempt of the acceptance pipeline. -/
inductive StepOutcome where
  | accepted (t : Text)
  | rejected
deriving Repr, DecidableEq

/-- Result of one attempt: outcome, next state, number of candidate
generation calls (always one) and total generation-backend calls spent
(insight extraction plus candidate generation plus critique). -/
structure StepRes where
  outcome : StepOutcome
  state : GenState
  genCalls : Nat
  backendCalls : Nat

/-- One iteration of the generate_tweet loop.  The live-data branch also
reads can_mention_price(), which only alters the prompt text, so it does not
appear here; the gate order is the source order: empty check, clean-up,
catch-phrase day gate, near-duplicate check, structural validation, critique
score gate, then the acceptance side effects. -/
def genStep (cfg : GenConfig) (st : GenState) (a : Attempt) : StepRes :=
  let insight := if !cfg.customPrompt && cfg.hasLearnings then 1 else 0
  let base := insight + 1
  match a.raw with
  | none => ⟨.rejected, st, 1, base⟩
  | some raw =>
    if raw.isEmpty then ⟨.rejected, st, 1, base⟩
    else
      let c := cleanupContent raw
      if containsGm c && (st.lastGmDate == some cfg.today) then ⟨.rejected, st, 1, base⟩
      else if isTooSimilar st.recentTweets c then ⟨.rejected, st, 1, base⟩
      else if !(validate cfg.vcfg c).1 then ⟨.rejected, st, 1, base⟩
      else
        let score := critiqueTweetScore a.critiqueResp
        if score < 8 then ⟨.rejected, st, 1, base + 1⟩
        else
          ⟨.accepted c,
           { lastGmDate := if containsGm c then some cfg.today else st.lastGmDate,
             recentTweets := trackTweet st.recentTweets c,
             priceTracker :=
               if containsPriceAction c then st.priceTracker.recordPriceMention cfg.now
               else st.priceTracker },
           1, base + 1⟩

/-- Result of a whole generate_tweet run. -/
structure RunRes where
  result : Option Text
  state : GenState
  genCalls : Nat
  backendCalls : Nat

/-- generate_tweet over its attempt budget: the oracle list has one entry
per allowed attempt; the loop returns the first accepted candidate and
returns None once the budget is exhausted. -/
def genRun (cfg : GenConfig) (st : GenState) : List Attempt → RunRes
  | [] => ⟨none, st, 0, 0⟩
  | a :: rest =>
    let r := genStep cfg st a
    match r.outcome with
    | .accepted t => ⟨some t, r.state, r.genCalls, r.backendCalls⟩
    | .rejected =>
      let rr := genRun cfg r.state rest
      ⟨rr.result, rr.state, r.genCalls + rr.genCalls, r.backendCalls + rr.backendCalls⟩

/-- One item of a posting trace: the UTC day of the attempt and its oracle
record. -/
structure TraceItem where
  day : Nat
  attempt : Attempt

/-- A sequence of acceptance-pipeline attempts across days, accumulating the
accepted posts with their days. -/
def runTrace (cfg : GenConfig) (acc : List (Nat × Text)) (st : GenState) :
    List TraceItem → List (Nat × Text) × GenState
  | [] => (acc, st)
  | it :: rest =>
    let r := genStep { cfg with today := it.day } st it.attempt
    match r.outcome with
    | .accepted t => runTrace cfg (acc ++ [(it.day, t)]) r.state rest
    | .rejected => runTrace cfg acc r.state rest

/-- The days of the accepted posts that contain the catch-phrase. -/
def gmDays (l : List (Nat × Text)) : List Nat :=
  (l.filter (fun p => containsGm p.2)).map Prod.fst

/-- A candidate contains a bare-IP URL (the specific suspicious-URL class
named by the specification). -/
def hasBareIpUrl (content : Text) : Bool :=
  (extractUrls content).any urlIsBareIp

/-! ## Reply producers

Embeddings of ReplyHandler, MentionHandler and AccountMonitor.  Discovered
source items (comments, mentions, monitored-account tweets) share one record
shape; the generation and posting collaborators are oracles; every
interaction relevant to the shared quota is logged as an event so that the
presence or absence of rate-limiter consultations is a provable fact of the
trace. -/

/-- A discovered source item (comment, mention or monitored-account tweet)
with the metadata the worthiness filters read. -/
structure SourceItem where
  id : Nat
  text : Text
  authorId : Nat
  authorUsername : Text
  authorFollowers : Nat
  likes : Nat
  retweets : Nat
deriving Repr, DecidableEq, Inhabited

/-- Events of a reply-producing run, as far as the shared quota protocol is
concerned. -/
inductive REvent where
  | quotaCheck
  | canReplyCheck
  | genCall
  | submit
  | recordReply
deriving Repr, DecidableEq

/-- Python str.isupper(): at least one cased character and no lowercase
cased character (ASCII-faithful). -/
def pyIsUpper (t : Text) : Bool :=
  t.any (fun c => c.isUpper || c.isLower) && t.all (fun c => !c.isLower)

/-- Stable insertion keeping the descending key order (ties keep the earlier
element first, as the stable Python sort with reverse=True does). -/
def insertByKeyDesc (key : SourceItem → ℚ) (x : SourceItem) :
    List SourceItem → List SourceItem
  | [] => [x]
  | y :: ys => if key x ≥ key y then x :: y :: ys else y :: insertByKeyDesc key x ys

/-- Stable descending sort by key: the unique stable descending order, hence
the order the Python sort produces. -/
def sortByKeyDesc (key : SourceItem → ℚ) : List SourceItem → List SourceItem
  | [] => []
  | x :: xs => insertByKeyDesc key x (sortByKeyDesc key xs)

/-- The ranking key of ReplyHandler.select_best_replies. -/
def replyRankKey (r : SourceItem) : ℚ :=
  (r.likes : ℚ) * 2 + (r.authorFollowers : ℚ) / 100

/-- The ranking key of MentionHandler.select_mentions_to_reply. -/
def mentionRankKey (m : SourceItem) : ℚ :=
  (m.likes : ℚ) * 2 + (m.retweets : ℚ) * 3 + (m.authorFollowers : ℚ) / 100

/-- The blocked-author list of the settings module (stored lowercase). -/
def blockedUsernames : List Text := [lit "armoskii"]

/-- The spam phrase list of ReplyHandler.is_worth_replying. -/
def replySpamIndicators : List String :=
  ["dm me", "check out", "buy now", "click here", "follow me"]

/-- The spam phrase list of MentionHandler.select_mentions_to_reply. -/
def mentionSpamIndicators : List String :=
  ["dm me", "check out", "click here", "buy now", "follow back"]

/-- ReplyHandler.is_worth_replying: self-reply prevention by stable author
identifier (when the bot id is known), author block list, per-producer
dedup, length, spam, caps and engagement filters, in source order. -/
def isWorthReplying (botUserId : Option Nat) (repliedTo : List Nat)
    (r : SourceItem) : Bool :=
  if (match botUserId with
      | some b => r.authorId == b
      | none => false) then false
  else if blockedUsernames.contains (lowerText r.authorUsername) then false
  else if repliedTo.contains r.id then false
  else
    let t := lowerText r.text
    if t.length < 10 then false
    else if replySpamIndicators.any (fun s => containsSub (lit s) t) then false
    else if pyIsUpper t && t.length > 20 then false
    else if r.authorFollowers < 5 && r.likes == 0 then false
    else (decide (r.likes > 0)) || (decide (r.authorFollowers > 10))

/-- The per-mention keep condition inside MentionHandler.get_recent_mentions:
drop already-replied ids and drop the item whose author username equals the
bot username case-insensitively (the author identifier is never compared). -/
def mentionKept (botUsername : Text) (repliedIds : List Nat) (m : SourceItem) : Bool :=
  !(repliedIds.contains m.id) && !(lowerText m.authorUsername == lowerText botUsername)

/-- MentionHandler.select_mentions_to_reply: worthiness filter (length, spam
phrases, caps), then stable descending ranking, then the per-hour cap. -/
def selectMentionsToReply (maxPerHour : Nat) (mentions : List SourceItem) :
    List SourceItem :=
  let worthy := mentions.filter (fun m =>
    let t := lowerText m.text
    !(decide (t.length < 15)) &&
      !(mentionSpamIndicators.any (fun s => containsSub (lit s) t)) &&
      !(pyIsUpper t && t.length > 20))
  if worthy.isEmpty then []
  else (sortByKeyDesc mentionRankKey worthy).take maxPerHour

/-- The reply loop of MentionHandler.handle_mentions over the selected
mentions: generate (one backend call each), post when the generated reply is
non-empty and within 280 characters, record the id on success.  The source
contains no rate-limiter interaction, and accordingly no such event can
appear in this trace. -/
def mentionReplyLoop (genOracle : SourceItem → Option Text)
    (postOk : SourceItem → Bool) (repliedIds : List Nat) :
    List SourceItem → List REvent × List Nat × Nat
  | [] => ([], repliedIds, 0)
  | m :: rest =>
    let reply := genOracle m
    let (evHere, ids, posted) :=
      match reply with
      | some r =>
        if !r.isEmpty && r.length ≤ 280 then
          if postOk m then ([REvent.genCall, REvent.submit], repliedIds ++ [m.id], 1)
          else ([REvent.genCall, REvent.submit], repliedIds, 0)
        else ([REvent.genCall], repliedIds, 0)
      | none => ([REvent.genCall], repliedIds, 0)
    let (evRest, ids2, n2) := mentionReplyLoop genOracle postOk ids rest
    (evHere ++ evRest, ids2, posted + n2)

/-- MentionHandler.handle_mentions on an already-fetched mention list. -/
def handleMentionsEvents (maxPerHour : Nat) (mentions : List SourceItem)
    (genOracle : SourceItem → Option Text) (postOk : SourceItem → Bool) :
    List REvent × List Nat × Nat :=
  mentionReplyLoop genOracle postOk [] (selectMentionsToReply maxPerHour mentions)

/-- AccountMonitor.check_and_reply_to_accounts: for each monitored account
the freshly discovered tweets (already excluding previously replied ids, as
the fetch helper does), generate and post a reply to each.  As in the
source, no rate-limiter interaction exists. -/
def accountMonitorEvents (tweetsByUser : List (List SourceItem))
    (genOracle : SourceItem → Option Text) (postOk : SourceItem → Bool) :
    List REvent × Nat :=
  match tweetsByUser with
  | [] => ([], 0)
  | tweets :: rest =>
    let (evHere, n1) := mentionReplyLoopNoIds tweets
    let (evRest, n2) := accountMonitorEvents rest genOracle postOk
    (evHere ++ evRest, n1 + n2)
where
  mentionReplyLoopNoIds : List SourceItem → List REvent × Nat
    | [] => ([], 0)
    | tw :: more =>
      let reply := genOracle tw
      let (evHere, posted) :=
        match reply with
        | some r =>
          if !r.isEmpty && r.length ≤ 280 then
            if postOk tw then ([REvent.genCall, REvent.submit], 1)
            else ([REvent.genCall, REvent.submit], 0)
          else ([REvent.genCall], 0)
        | none => ([REvent.genCall], 0)
      let (evRest, n) := mentionReplyLoopNoIds more
      (evHere ++ evRest, posted + n)

/-- ReplyHandler.select_best_replies: an optional quota consultation that
can empty or shrink the selection, the worthiness filter, the stable
descending ranking, and the low-probability random swap of the last
guaranteed slot (the random draws are oracle inputs). -/
def selectBestReplies (limiter : Option SharedReplyRateLimiter) (now : Int)
    (botUserId : Option Nat) (repliedTo : List Nat) (replies : List SourceItem)
    (maxCount : Nat) (rngSwap : Bool) (rngPick : Nat) :
    List SourceItem × Option SharedReplyRateLimiter × List REvent :=
  let pick : Nat → List SourceItem := fun mc =>
    let worthy := replies.filter (isWorthReplying botUserId repliedTo)
    if worthy.isEmpty then []
    else
      let sorted := sortByKeyDesc replyRankKey worthy
      if sorted.length > mc then
        let guaranteed := sorted.take mc
        let remaining := (sorted.drop mc).take mc
        if !remaining.isEmpty && rngSwap && !guaranteed.isEmpty then
          guaranteed.dropLast ++ [remaining.getD (rngPick % remaining.length) default]
        else guaranteed
      else sorted.take mc
  match limiter with
  | some rl =>
    let (q, rl') := rl.getRemainingQuota now
    if q ≤ 0 then ([], some rl', [REvent.quotaCheck])
    else (pick (min maxCount q.toNat), some rl', [REvent.quotaCheck])
  | none => (pick maxCount, none, [])

/-- ReplyHandler.post_reply: consult can_reply() immediately before the
submission, submit, and record the reply only on confirmed success. -/
def postReply (limiter : Option SharedReplyRateLimiter) (now : Int)
    (repliedTo : List Nat) (item : SourceItem) (postOk : Bool) :
    Bool × Option SharedReplyRateLimiter × List Nat × List REvent :=
  match limiter with
  | some rl =>
    let (ok, _, rl') := rl.canReply now
    if !ok then (false, some rl', repliedTo, [REvent.canReplyCheck])
    else if postOk then
      (true, some (rl'.recordReply now), repliedTo ++ [item.id],
       [REvent.canReplyCheck, REvent.submit, REvent.recordReply])
    else (false, some rl', repliedTo, [REvent.canReplyCheck, REvent.submit])
  | none =>
    if postOk then (true, none, repliedTo ++ [item.id], [REvent.submit])
    else (false, none, repliedTo, [REvent.submit])

/-- The per-item loop of ReplyHandler.handle_tweet_replies: consult
can_reply() before spending the generation call (stopping the cycle on
denial), generate, and submit through post_reply. -/
def replyHandlerLoop (limiter : Option SharedReplyRateLimiter) (now : Int)
    (repliedTo : List Nat) (genOracle : SourceItem → Option Text)
    (postOk : SourceItem → Bool) :
    List SourceItem → List REvent × Option SharedReplyRateLimiter × List Nat × Nat
  | [] => ([], limiter, repliedTo, 0)
  | item :: rest =>
    let gate : Bool × Option SharedReplyRateLimiter × List REvent :=
      match limiter with
      | some rl =>
        let (ok, _, rl') := rl.canReply now
        (ok, some rl', [REvent.canReplyCheck])
      | none => (true, none, [])
    if !gate.1 then (gate.2.2, gate.2.1, repliedTo, 0)
    else
      let reply := genOracle item
      match reply with
      | some r =>
        if !r.isEmpty && r.length ≤ 280 then
          let (posted, rl2, rt2, ev2) := postReply gate.2.1 now repliedTo item (postOk item)
          let (evRest, rl3, rt3, n3) := replyHandlerLoop rl2 now rt2 genOracle postOk rest
          (gate.2.2 ++ [REvent.genCall] ++ ev2 ++ evRest, rl3, rt3,
           (if posted then 1 else 0) + n3)
        else
          let (evRest, rl3, rt3, n3) := replyHandlerLoop gate.2.1 now repliedTo genOracle postOk rest
          (gate.2.2 ++ [REvent.genCall] ++ evRest, rl3, rt3, n3)
      | none =>
        let (evRest, rl3, rt3, n3) := replyHandlerLoop gate.2.1 now repliedTo genOracle postOk rest
        (gate.2.2 ++ [REvent.genCall] ++ evRest, rl3, rt3, n3)

/-- ReplyHandler.handle_tweet_replies on an already-fetched reply list. -/
def handleTweetRepliesEvents (limiter : Option SharedReplyRateLimiter) (now : Int)
    (botUserId : Option Nat) (repliedTo : List Nat) (maxReplies : Nat)
    (replies : List SourceItem) (rngSwap : Bool) (rngPick : Nat)
    (genOracle : SourceItem → Option Text) (postOk : SourceItem → Bool) :
    List REvent × Option SharedReplyRateLimiter × List Nat × Nat :=
  if replies.isEmpty then ([], limiter, repliedTo, 0)
  else
    let (selected, rl', ev1) :=
      selectBestReplies limiter now botUserId repliedTo replies maxReplies rngSwap rngPick
    if selected.isEmpty then (ev1, rl', repliedTo, 0)
    else
      let (ev2, rl2, rt2, n2) := replyHandlerLoop rl' now repliedTo genOracle postOk selected
      (ev1 ++ ev2, rl2, rt2, n2)

/-! ## Bot start-up wiring

Embedding of the component construction sequence of the entry point, at the
granularity that decides whether it can start at all: Python keyword-argument
binding against each constructor signature. -/

/-- The keyword parameters accepted by MentionHandler.__init__. -/
def mentionHandlerInitParams : List String :=
  ["twitter_client", "claude_client", "max_replies_per_hour"]

/-- The keyword parameters accepted by ReplyHandler.__init__. -/
def replyHandlerInitParams : List String :=
  ["twitter_client", "claude_client", "max_replies_per_tweet", "rate_limiter"]

/-- The keyword parameters accepted by AccountMonitor.__init__. -/
def accountMonitorInitParams : List String :=
  ["twitter_client", "claude_client", "target_usernames"]

/-- Python keyword binding: a call raises TypeError when some keyword is not
among the accepted parameters. -/
def pyKwargsBind (cls : String) (params kwargs : List String) : Except String Unit :=
  match kwargs.find? (fun k => !params.contains k) with
  | some k => Except.error s!"{cls} got an unexpected keyword argument {k}"
  | none => Except.ok ()

/-- Witness that the bot came up: both long-running activities started. -/
structure BotRunning where
  mentionThreadStarted : Bool
  postingLoopEntered : Bool
deriving Repr, DecidableEq

/-- The component-construction prefix of main(): ReplyHandler, then
AccountMonitor, then MentionHandler, each with the keyword arguments the
entry point passes; only if every construction binds does the mention
monitoring thread start and the posting loop begin. -/
def botStartup (enableReplies : Bool) (haveMonitoredAccounts : Bool) :
    Except String BotRunning := do
  if enableReplies then
    pyKwargsBind "ReplyHandler" replyHandlerInitParams
      ["max_replies_per_tweet", "rate_limiter"]
  if haveMonitoredAccounts then
    pyKwargsBind "AccountMonitor" accountMonitorInitParams ["target_usernames"]
  if enableReplies then
    pyKwargsBind "MentionHandler" mentionHandlerInitParams ["rate_limiter"]
  pure { mentionThreadStarted := enableReplies, postingLoopEntered := true }

/-! ## Concrete scenario material

Fixed inputs used by the closed evaluations below. -/

/-- A default generation-loop configuration (template path, no learned
context, day 0). -/
def sampleCfg : GenConfig :=
  { customPrompt := false, hasLearnings := false, today := 0, now := 0, vcfg := {} }

/-- The same configuration with a populated learned-context file. -/
def learnCfg : GenConfig := { sampleCfg with hasLearnings := true }

/-- A candidate with four hashtags: structurally invalid under the default
maximum of three. -/
def hashtagRaw : Text := lit "#a #b #c #d"

/-- An attempt whose candidate fails structural validation. -/
def hashtagAttempt : Attempt := { raw := some hashtagRaw, critiqueResp := none }

/-- An attempt whose candidate is structurally fine but critiqued at 7. -/
def lowScoreAttempt : Attempt :=
  { raw := some (lit "solid take fren"), critiqueResp := some (lit "Score: 7\nWhy: mid") }

/-- An attempt carrying the catch-phrase and a passing critique. -/
def gmAttempt : Attempt :=
  { raw := some (lit "gm frens stay based and build"),
    critiqueResp := some (lit "Score: 9\nWhy: nice") }

/-- Two same-day catch-phrase attempts followed by a next-day one. -/
def gmTrace : List TraceItem := [⟨0, gmAttempt⟩, ⟨0, gmAttempt⟩, ⟨1, gmAttempt⟩]

/-- A mention passing every worthiness filter. -/
def worthyMention : SourceItem :=
  { id := 1, text := lit "what do you think about the pfp supercycle fren",
    authorId := 99, authorUsername := lit "randomfren", authorFollowers := 50,
    likes := 1, retweets := 0 }

/-- A generation oracle answering every item with a short fixed reply. -/
def constReplyGen : SourceItem → Option Text := fun _ => some (lit "lets compound fren")

/-- A posting oracle for which every submission succeeds. -/
def constPostOk : SourceItem → Bool := fun _ => true

/-- The stable user id of the bot account in the scenarios. -/
def botUserIdSample : Nat := 42

/-- The username of the bot account in the scenarios. -/
def botUsernameSample : Text := lit "pumpfunpepe"

/-- An item authored by the bot itself (same stable author id) under a
changed username. -/
def selfAuthoredMention : SourceItem :=
  { id := 9, text := lit "replying to myself about the pfp supercycle fren",
    authorId := 42, authorUsername := lit "renamed_fren", authorFollowers := 10,
    likes := 0, retweets := 0 }

/-! ## Helper lemmas -/

theorem recordN_state (m N : Nat) (now : Int) :
    ((SharedReplyRateLimiter.init m).recordN now N).timestamps = List.replicate N now ∧
      ((SharedReplyRateLimiter.init m).recordN now N).maxPerHour = m := by
  induction N with
  | zero => simp [SharedReplyRateLimiter.recordN, SharedReplyRateLimiter.init]
  | succ n ih =>
    simp [SharedReplyRateLimiter.recordN, SharedReplyRateLimiter.recordReply, ih.1, ih.2,
      List.replicate_succ']

theorem prune_same_instant (m N : Nat) (now : Int) :
    (((SharedReplyRateLimiter.init m).recordN now N).prune now).timestamps =
      List.replicate N now := by
  have h := recordN_state m N now
  unfold SharedReplyRateLimiter.prune
  rw [h.1]
  apply List.filter_eq_self.mpr
  intro a ha
  rw [List.eq_of_mem_replicate ha]
  simp

/-- Claim C3: can_reply() first prunes timestamps older than one hour and
allows exactly when the pruned count is strictly below the configured
maximum, yielding a reason string exactly when it refuses; after N
synchronous record_reply() calls with N ≤ max, the remaining quota is
max - N and can_reply() refuses exactly when N = max. -/
theorem c3_rate_limiter (st : SharedReplyRateLimiter) (now : Int) (m N : Nat)
    (hN : N ≤ m) :
    ((st.canReply now).1 = true ↔
      (st.timestamps.filter (fun ts => decide (ts > now - 3600))).length < st.maxPerHour)
    ∧ ((st.canReply now).1 = false ↔ (st.canReply now).2.1.isSome)
    ∧ (((SharedReplyRateLimiter.init m).recordN now N).getRemainingQuota now).1 = (m : Int) - N
    ∧ ((((SharedReplyRateLimiter.init m).recordN now N).canReply now).1 = false ↔ N = m) := by
  have hp := prune_same_instant m N now
  have hm : (((SharedReplyRateLimiter.init m).recordN now N).prune now).maxPerHour = m := by
    unfold SharedReplyRateLimiter.prune
    exact (recordN_state m N now).2
  refine ⟨?_, ?_, ?_, ?_⟩
  · unfold SharedReplyRateLimiter.canReply SharedReplyRateLimiter.prune
    dsimp only
    split <;> rename_i hsplit <;> simp_all
  · unfold SharedReplyRateLimiter.canReply
    dsimp only
    split <;> simp
  · unfold SharedReplyRateLimiter.getRemainingQuota
    dsimp only
    rw [hp, hm]
    simp
    omega
  · unfold SharedReplyRateLimiter.canReply
    dsimp only
    rw [hp, hm]
    split <;> rename_i hsplit <;> simp_all <;> omega

theorem c3_rate_limiter_witness :
    3 ≤ 5 ∧
      (((SharedReplyRateLimiter.init 5).recordN 1000 3).getRemainingQuota 1000).1 =
        (5 : Int) - 3 :=
  ⟨by decide, (c3_rate_limiter (SharedReplyRateLimiter.init 5) 1000 5 3 (by decide)).2.2.1⟩

/-- Claim C5: can_mention_price() holds exactly when at least 24 hours have
elapsed since the last recorded mention (a never-recorded state satisfies
it), and get_time_until_next_allowed() is max(0, 24 - hours elapsed),
reaching 0 exactly when mentioning is allowed again. -/
theorem c5_price_gate (tr : PriceMentionTracker) (now : ℚ) (h0 : 0 ≤ now) :
    tr.getTimeUntilNextAllowed now = max 0 (24 - (now - tr.lastMentionTime) / 3600)
    ∧ (tr.canMentionPrice now = true ↔ 24 ≤ (now - tr.lastMentionTime) / 3600)
    ∧ (tr.canMentionPrice now = true ↔ tr.getTimeUntilNextAllowed now = 0)
    ∧ PriceMentionTracker.fresh.canMentionPrice now = true := by
  have key : (86400 : ℚ) ≤ now - tr.lastMentionTime ↔
      24 ≤ (now - tr.lastMentionTime) / 3600 := by
    rw [le_div_iff₀ (by norm_num : (0 : ℚ) < 3600)]
    norm_num
  refine ⟨?_, ?_, ?_, ?_⟩
  · unfold PriceMentionTracker.getTimeUntilNextAllowed
    dsimp only
    split <;> rename_i hsplit
    · rw [max_eq_left]
      linarith
    · rw [max_eq_right]
      push_neg at hsplit
      linarith
  · unfold PriceMentionTracker.canMentionPrice
    simpa using key
  · unfold PriceMentionTracker.canMentionPrice PriceMentionTracker.getTimeUntilNextAllowed
    dsimp only
    split <;> rename_i hsplit
    · simp only [decide_eq_true_eq]
      constructor
      · intro _
        trivial
      · intro _
        exact key.mpr hsplit
    · push_neg at hsplit
      simp only [decide_eq_true_eq]
      constructor
      · intro hc
        exact absurd (key.mp hc) (by linarith)
      · intro hz
        exfalso
        linarith
  · unfold PriceMentionTracker.canMentionPrice PriceMentionTracker.fresh pythonDatetimeMin
    simp only [decide_eq_true_eq]
    linarith

theorem c5_price_gate_witness :
    (0 : ℚ) ≤ 43200 ∧
      ((⟨0⟩ : PriceMentionTracker).canMentionPrice 43200 = true ↔
        (⟨0⟩ : PriceMentionTracker).getTimeUntilNextAllowed 43200 = 0) :=
  ⟨by norm_num, (c5_price_gate ⟨0⟩ 43200 (by norm_num)).2.2.1⟩

theorem genStep_low_score_rejected (cfg : GenConfig) (st : GenState) (a : Attempt)
    (h : critiqueTweetScore a.critiqueResp < 8) :
    (genStep cfg st a).outcome = StepOutcome.rejected := by
  unfold genStep
  rcases ha : a.raw with _ | raw
  · rfl
  · dsimp only
    split_ifs <;> simp_all

/-- Claim C4: the critique gate rejects (forcing regeneration) whenever the
parsed score is strictly below 8; a failed critique call, a response without
a Score tag, and a tag line without digits all default to score 7, which the
gate then rejects rather than accepts. -/
theorem c4_critique_gate :
    critiqueTweetScore none = 7
    ∧ (∀ r : Text, containsSub (lit "Score:") r = false → critiqueTweetScore (some r) = 7)
    ∧ (∀ r : Text,
        (((upToNext (lit "Score:") (afterFirstSeg (lit "Score:") r)).takeWhile
          (fun c => c ≠ '\n')).filter Char.isDigit).isEmpty = true →
        critiqueTweetScore (some r) = 7)
    ∧ (∀ (cfg : GenConfig) (st : GenState) (a : Attempt),
        critiqueTweetScore a.critiqueResp < 8 →
        (genStep cfg st a).outcome = StepOutcome.rejected)
    ∧ (∀ (cfg : GenConfig) (st : GenState) (a : Attempt), a.critiqueResp = none →
        (genStep cfg st a).outcome = StepOutcome.rejected) := by
  refine ⟨rfl, ?_, ?_, ?_, ?_⟩
  · intro r h
    simp only [critiqueTweetScore]
    simp [h]
  · intro r h
    simp only [critiqueTweetScore]
    split
    · rw [List.isEmpty_iff] at h
      rw [h]
      rfl
    · rfl
  · intro cfg st a h
    exact genStep_low_score_rejected cfg st a h
  · intro cfg st a h
    apply genStep_low_score_rejected
    rw [h]
    decide

theorem c4_critique_gate_witness :
    critiqueTweetScore lowScoreAttempt.critiqueResp < 8 ∧
      (genStep sampleCfg GenState.fresh lowScoreAttempt).outcome = StepOutcome.rejected :=
  ⟨by decide, c4_critique_gate.2.2.2.1 sampleCfg GenState.fresh lowScoreAttempt (by decide)⟩

/-- Claim C2: MentionHandler.__init__ accepts only twitter_client,
claude_client and max_replies_per_hour, so the entry point, which passes the
keyword argument rate_limiter when the reply system is enabled (the
default), fails during initialization — before the posting loop is entered
or the mention-monitoring thread is started. -/
theorem c2_startup_crash :
    mentionHandlerInitParams.contains "rate_limiter" = false
    ∧ botStartup true true =
        Except.error "MentionHandler got an unexpected keyword argument rate_limiter"
    ∧ botStartup true false =
        Except.error "MentionHandler got an unexpected keyword argument rate_limiter"
    ∧ (botStartup true true).toOption = none := by
  refine ⟨by decide, rfl, rfl, rfl⟩

/-- Claim C1, evaluated on the code at the failing configuration: a worthy
mention and a monitored-account tweet each cost a generation call and a
submission with no rate-limiter consultation and no quota recording at all,
while the comment-reply path checks the shared limiter before spending its
generation call and records only after a confirmed submission. -/
theorem c1_mention_account_skip_limiter :
    (handleMentionsEvents 4 [worthyMention] constReplyGen constPostOk).1 =
      [REvent.genCall, REvent.submit]
    ∧ (handleMentionsEvents 4 [worthyMention] constReplyGen constPostOk).1.count
        REvent.canReplyCheck = 0
    ∧ (handleMentionsEvents 4 [worthyMention] constReplyGen constPostOk).1.count
        REvent.recordReply = 0
    ∧ (accountMonitorEvents [[worthyMention]] constReplyGen constPostOk).1 =
      [REvent.genCall, REvent.submit]
    ∧ (handleTweetRepliesEvents (some (SharedReplyRateLimiter.init 5)) 1000
        (some botUserIdSample) [] 2 [worthyMention] false 0 constReplyGen constPostOk).1 =
      [REvent.quotaCheck, REvent.canReplyCheck, REvent.genCall, REvent.canReplyCheck,
       REvent.submit, REvent.recordReply] := by
  decide

/-- Claim C10 counterexample: an item authored by the bot itself (its stable
author id) but under a changed username passes the mention handler, is
selected, and receives a generated reply — the mention path compares
usernames, not the stable author identifier. -/
theorem c10_counterexample_username_filter :
    selfAuthoredMention.authorId = botUserIdSample
    ∧ mentionKept botUsernameSample [] selfAuthoredMention = true
    ∧ selectMentionsToReply 4 [selfAuthoredMention] = [selfAuthoredMention]
    ∧ (handleMentionsEvents 4 [selfAuthoredMention] constReplyGen constPostOk).1.count
        REvent.genCall = 1 := by
  decide

/-- Claim C10 amended: the comment-reply worthiness filter rejects the
producer's own items by stable author identifier whenever the bot id is
known, regardless of the username; the mention handler instead drops an
item exactly when it was already replied to or its author username equals
the bot username case-insensitively. -/
theorem c10_amended_self_filters (b : Nat) (replied : List Nat) (r m : SourceItem)
    (botU : Text) (hr : r.authorId = b) :
    isWorthReplying (some b) replied r = false
    ∧ (mentionKept botU replied m = false ↔
        replied.contains m.id = true ∨ lowerText m.authorUsername = lowerText botU) := by
  constructor
  · unfold isWorthReplying
    simp [hr]
  · unfold mentionKept
    cases hA : replied.contains m.id <;>
      cases hB : lowerText m.authorUsername == lowerText botU <;>
        simp_all

theorem c10_amended_witness :
    selfAuthoredMention.authorId = botUserIdSample ∧
      isWorthReplying (some botUserIdSample) [] selfAuthoredMention = false :=
  ⟨rfl, (c10_amended_self_filters botUserIdSample [] selfAuthoredMention
    selfAuthoredMention botUsernameSample rfl).1⟩

/-- Claim C6 counterexample: with learned context present, a run in which
every candidate fails structural validation makes 20 generation-backend
calls across the 10-attempt budget (one insight-extraction call plus one
candidate call per attempt), not exactly 10. -/
theorem c6_counterexample_backend_calls :
    (validate learnCfg.vcfg (cleanupContent hashtagRaw)).1 = false
    ∧ (genRun learnCfg GenState.fresh (List.replicate 10 hashtagAttempt)).result = none
    ∧ (genRun learnCfg GenState.fresh (List.replicate 10 hashtagAttempt)).genCalls = 10
    ∧ (genRun learnCfg GenState.fresh (List.replicate 10 hashtagAttempt)).backendCalls = 20 := by
  decide

theorem genStep_invalid_rejected (cfg : GenConfig) (st : GenState) (a : Attempt)
    (h : ∀ raw, a.raw = some raw → (validate cfg.vcfg (cleanupContent raw)).1 = false) :
    (genStep cfg st a).outcome = StepOutcome.rejected
    ∧ (genStep cfg st a).state = st
    ∧ (genStep cfg st a).genCalls = 1
    ∧ (genStep cfg st a).backendCalls ≤ 2 := by
  unfold genStep
  rcases ha : a.raw with _ | raw
  · dsimp only
    split_ifs <;> simp_all
  · have hv := h raw ha
    dsimp only
    split_ifs <;> simp_all

/-- Claim C6 amended: when every generated candidate fails structural
validation, the run returns failure after exactly one candidate-generation
backend call per budgeted attempt (the attempt budget, default 10); any
backend calls beyond those are the per-attempt insight-extraction calls
made when learned context is present, at most one per attempt, so the total
is bounded by twice the budget. -/
theorem c6_budget_exhaustion (cfg : GenConfig) (st : GenState) (attempts : List Attempt)
    (h : ∀ a ∈ attempts, ∀ raw, a.raw = some raw →
      (validate cfg.vcfg (cleanupContent raw)).1 = false) :
    (genRun cfg st attempts).result = none
    ∧ (genRun cfg st attempts).genCalls = attempts.length
    ∧ (genRun cfg st attempts).backendCalls ≤ 2 * attempts.length := by
  induction attempts generalizing st with
  | nil => exact ⟨rfl, rfl, by simp [genRun]⟩
  | cons a rest ih =>
    have hstep := genStep_invalid_rejected cfg st a
      (fun raw hraw => h a (List.mem_cons_self a rest) raw hraw)
    have hrest := ih (genStep cfg st a).state
      (fun a' ha' raw hraw => h a' (List.mem_cons_of_mem a ha') raw hraw)
    simp only [genRun]
    rw [hstep.1]
    dsimp only
    refine ⟨hrest.1, ?_, ?_⟩
    · rw [hstep.2.2.1, hrest.2.1, List.length_cons]
      omega
    · have h1 := hstep.2.2.2
      have h2 := hrest.2.2
      rw [List.length_cons]
      omega

theorem c6_budget_exhaustion_witness :
    (validate sampleCfg.vcfg (cleanupContent hashtagRaw)).1 = false ∧
      (genRun sampleCfg GenState.fresh (List.replicate 3 hashtagAttempt)).genCalls = 3 := by
  refine ⟨by decide, ?_⟩
  have h := (c6_budget_exhaustion sampleCfg GenState.fresh (List.replicate 3 hashtagAttempt)
    (by
      intro a ha raw hraw
      rw [List.eq_of_mem_replicate ha] at hraw
      have hr : raw = hashtagRaw := by
        simpa [hashtagAttempt] using hraw.symm
      rw [hr]
      decide)).2.1
  simpa using h

theorem validate_true_bounds (cfg : ValidatorCfg) (c : Text)
    (h : (validate cfg c).1 = true) :
    c.length ≤ cfg.maxLength ∧ countHashtags c ≤ cfg.maxHashtags ∧
      containsSuspiciousUrls c = false := by
  unfold validate at h
  dsimp only at h
  rw [List.isEmpty_iff] at h
  simp only [List.append_eq_nil] at h
  refine ⟨?_, ?_, ?_⟩
  · have h1 := h.1.1.1.1
    by_contra hc
    rw [if_pos (by omega)] at h1
    exact absurd h1 (by simp)
  · have h3 := h.1.1.2
    by_contra hc
    rw [if_pos (by omega)] at h3
    exact absurd h3 (by simp)
  · have h5 := h.2
    cases hs : containsSuspiciousUrls c
    · rfl
    · rw [if_pos hs] at h5
      exact absurd h5 (by simp)

theorem suspicious_of_bareIp (c : Text) (h : hasBareIpUrl c = true) :
    containsSuspiciousUrls c = true := by
  unfold hasBareIpUrl at h
  unfold containsSuspiciousUrls
  rw [List.any_eq_true] at h ⊢
  obtain ⟨u, hu, hip⟩ := h
  exact ⟨u, hu, by simp [hip]⟩

theorem genStep_accepted_inv (cfg : GenConfig) (st : GenState) (a : Attempt) (t : Text)
    (h : (genStep cfg st a).outcome = StepOutcome.accepted t) :
    ∃ raw, a.raw = some raw ∧ t = cleanupContent raw ∧
      (validate cfg.vcfg t).1 = true ∧
      (containsGm t = true → st.lastGmDate ≠ some cfg.today) ∧
      (genStep cfg st a).state.lastGmDate =
        (if containsGm t then some cfg.today else st.lastGmDate) ∧
      8 ≤ critiqueTweetScore a.critiqueResp := by
  rcases ha : a.raw with _ | raw
  · exact absurd h (by simp [genStep, ha])
  · unfold genStep at h ⊢
    simp only [ha] at h ⊢
    refine ⟨raw, rfl, ?_⟩
    dsimp only at h ⊢
    split_ifs at h ⊢ <;> simp_all

theorem genRun_result_shape (cfg : GenConfig) (st : GenState) (attempts : List Attempt)
    (t : Text) (h : (genRun cfg st attempts).result = some t) :
    (validate cfg.vcfg t).1 = true ∧
      ∃ a ∈ attempts, ∃ raw, a.raw = some raw ∧ t = cleanupContent raw := by
  induction attempts generalizing st with
  | nil => exact absurd h (by simp [genRun])
  | cons a rest ih =>
    rw [genRun] at h
    cases ho : (genStep cfg st a).outcome with
    | accepted t' =>
      rw [ho] at h
      dsimp only at h
      obtain rfl : t' = t := by simpa using h
      obtain ⟨raw, haraw, hteq, hval, -⟩ := genStep_accepted_inv cfg st a t' ho
      exact ⟨hval, a, List.mem_cons_self a rest, raw, haraw, hteq⟩
    | rejected =>
      rw [ho] at h
      dsimp only at h
      obtain ⟨hval, a', ha', raw, hraw, hteq⟩ := ih (genStep cfg st a).state h
      exact ⟨hval, a', List.mem_cons_of_mem a ha', raw, hraw, hteq⟩

/-- Claim C9: an over-length candidate, an over-hashtag candidate and a
bare-IP-URL candidate each fail structural validation; a structurally
invalid candidate is rejected with the generator state untouched, which
triggers regeneration; and whatever text a run returns is the cleaned text
of one generated candidate that passed validation — never a truncated or
otherwise altered version of a rejected candidate. -/
theorem c9_structural_rejection :
    (∀ (cfg : ValidatorCfg) (c : Text), cfg.maxLength < c.length →
      (validate cfg c).1 = false)
    ∧ (∀ (cfg : ValidatorCfg) (c : Text), cfg.maxHashtags < countHashtags c →
      (validate cfg c).1 = false)
    ∧ (∀ (cfg : ValidatorCfg) (c : Text), hasBareIpUrl c = true →
      (validate cfg c).1 = false)
    ∧ (∀ (cfg : GenConfig) (st : GenState) (a : Attempt) (raw : Text),
        a.raw = some raw → (validate cfg.vcfg (cleanupContent raw)).1 = false →
        (genStep cfg st a).outcome = StepOutcome.rejected ∧ (genStep cfg st a).state = st)
    ∧ (∀ (cfg : GenConfig) (st : GenState) (attempts : List Attempt) (t : Text),
        (genRun cfg st attempts).result = some t →
        (validate cfg.vcfg t).1 = true ∧
          ∃ a ∈ attempts, ∃ raw, a.raw = some raw ∧ t = cleanupContent raw) := by
  refine ⟨?_, ?_, ?_, ?_, ?_⟩
  · intro cfg c hlen
    cases hb : (validate cfg c).1
    · rfl
    · exact absurd (validate_true_bounds cfg c hb).1 (by omega)
  · intro cfg c hht
    cases hb : (validate cfg c).1
    · rfl
    · exact absurd (validate_true_bounds cfg c hb).2.1 (by omega)
  · intro cfg c hip
    cases hb : (validate cfg c).1
    · rfl
    · have := (validate_true_bounds cfg c hb).2.2
      rw [suspicious_of_bareIp c hip] at this
      exact absurd this (by simp)
  · intro cfg st a raw haraw hval
    have h := genStep_invalid_rejected cfg st a (by
      intro raw' hraw'
      rw [haraw] at hraw'
      obtain rfl : raw = raw' := by simpa using hraw'
      exact hval)
    exact ⟨h.1, h.2.1⟩
  · intro cfg st attempts t h
    exact genRun_result_shape cfg st attempts t h

theorem c9_structural_rejection_witness :
    sampleCfg.vcfg.maxHashtags < countHashtags hashtagRaw ∧
      (validate sampleCfg.vcfg hashtagRaw).1 = false :=
  ⟨by decide, c9_structural_rejection.2.1 sampleCfg.vcfg hashtagRaw (by decide)⟩

theorem filter_contains_eq_filter_mem (l1 l2 : List Text) :
    l1.filter (fun w => l2.contains w) = l1.filter (fun w => decide (w ∈ l2)) := by
  apply List.filter_congr
  intro w _
  simp [List.elem_iff]

theorem tooSimilarToOld_iff (c old : Text) :
    tooSimilarToOld c old = true ↔
      ((((meaningfulWords c).filter (fun w => w ∈ meaningfulWords old)).length : ℚ) /
          ((meaningfulWords c).length : ℚ) > 0.6
        ∨ ∃ p ∈ shingles3 c, p ∈ shingles3 old) := by
  unfold tooSimilarToOld
  dsimp only
  rw [Bool.or_eq_true, List.any_eq_true]
  apply or_congr
  · rw [filter_contains_eq_filter_mem]
    constructor
    · intro hov
      split_ifs at hov with hg
      exact (decide_eq_true_eq).mp hov
    · intro hrat
      have hne : ¬(meaningfulWords c).isEmpty = true ∧
          ¬(meaningfulWords old).isEmpty = true := by
        constructor
        · intro he
          rw [List.isEmpty_iff] at he
          rw [he] at hrat
          norm_num at hrat
        · intro he
          rw [List.isEmpty_iff] at he
          simp only [he, List.not_mem_nil, decide_False, List.filter_false] at hrat
          norm_num at hrat
      rw [if_pos (by simp [hne.1, hne.2])]
      exact decide_eq_true hrat
  · constructor
    · rintro ⟨p, hp, hmem⟩
      exact ⟨p, hp, List.elem_iff.mp hmem⟩
    · rintro ⟨p, hp, hmem⟩
      exact ⟨p, hp, List.elem_iff.mpr hmem⟩

/-- Claim C7: a candidate is rejected as a near-duplicate of the recent-post
history exactly when, for some history entry, the case-folded stop-word-free
word-set overlap ratio |new ∩ old| / |new| exceeds 0.6, or some
three-consecutive-word phrase of the candidate exactly matches one of that
entry. -/
theorem c7_near_duplicate_iff (recents : List Text) (c : Text) :
    isTooSimilar recents c = true ↔ specNearDuplicate recents c := by
  unfold isTooSimilar specNearDuplicate
  rw [List.any_eq_true]
  exact exists_congr fun old => and_congr_right fun _ => tooSimilarToOld_iff c old

theorem genStep_rejected_state (cfg : GenConfig) (st : GenState) (a : Attempt)
    (h : (genStep cfg st a).outcome = StepOutcome.rejected) :
    (genStep cfg st a).state = st := by
  rcases ha : a.raw with _ | raw
  · simp [genStep, ha]
  · unfold genStep at h ⊢
    simp only [ha] at h ⊢
    split_ifs at h ⊢ <;> simp_all

theorem gmDays_append (l1 l2 : List (Nat × Text)) :
    gmDays (l1 ++ l2) = gmDays l1 ++ gmDays l2 := by
  unfold gmDays
  rw [List.filter_append, List.map_append]

theorem gmDays_singleton (p : Nat × Text) :
    gmDays [p] = if containsGm p.2 then [p.1] else [] := by
  unfold gmDays
  cases hg : containsGm p.2 <;> simp [List.filter_cons, hg]

theorem pairwise_lt_filter_eq_le_one (l : List Nat) (h : l.Pairwise (· < ·)) (d : Nat) :
    (l.filter (fun x => decide (x = d))).length ≤ 1 := by
  induction l with
  | nil => simp
  | cons x xs ih =>
    rw [List.pairwise_cons] at h
    by_cases hx : x = d
    · subst hx
      have hnil : xs.filter (fun y => decide (y = x)) = [] := by
        rw [List.filter_eq_nil_iff]
        intro y hy
        simp only [decide_eq_true_eq]
        intro he
        exact absurd (h.1 y hy) (by omega)
      simp [List.filter_cons, hnil]
    · simp only [List.filter_cons, hx, decide_False, Bool.false_eq_true, if_false]
      exact ih h.2

theorem gm_day_count (l : List (Nat × Text)) (d : Nat) :
    (l.filter (fun p => containsGm p.2 && decide (p.1 = d))).length =
      ((gmDays l).filter (fun x => decide (x = d))).length := by
  induction l with
  | nil => rfl
  | cons p rest ih =>
    cases hg : containsGm p.2 <;> by_cases hd : p.1 = d <;>
      simp [gmDays, List.filter_cons, hg, hd] <;>
        simpa [gmDays] using ih

theorem runTrace_gm_pairwise (cfg : GenConfig) (items : List TraceItem) :
    ∀ (acc : List (Nat × Text)) (st : GenState),
      (items.map TraceItem.day).Pairwise (· ≤ ·) →
      (gmDays acc).Pairwise (· < ·) →
      (∀ x ∈ gmDays acc, ∃ g, st.lastGmDate = some g ∧ x ≤ g) →
      (∀ g, st.lastGmDate = some g → ∀ it ∈ items, g ≤ it.day) →
      (gmDays (runTrace cfg acc st items).1).Pairwise (· < ·) := by
  induction items with
  | nil =>
    intro acc st _ hacc _ _
    simpa [runTrace] using hacc
  | cons it rest ih =>
    intro acc st hmono hacc hconn hlb
    rw [List.map_cons, List.pairwise_cons] at hmono
    rw [runTrace]
    cases ho : (genStep { cfg with today := it.day } st it.attempt).outcome with
    | rejected =>
      have hst := genStep_rejected_state _ st it.attempt ho
      rw [hst]
      exact ih acc st hmono.2 hacc hconn
        (fun g hg it' hit' => hlb g hg it' (List.mem_cons_of_mem _ hit'))
    | accepted t =>
      obtain ⟨raw, -, -, -, hgate, hstate, -⟩ :=
        genStep_accepted_inv { cfg with today := it.day } st it.attempt t ho
      dsimp only at hgate hstate
      by_cases hcg : containsGm t = true
      · rw [if_pos hcg] at hstate
        have hlt : ∀ x ∈ gmDays acc, x < it.day := by
          intro x hx
          obtain ⟨g, hgs, hxg⟩ := hconn x hx
          have hgd : g ≤ it.day := hlb g hgs it (List.mem_cons_self _ _)
          have hne : g ≠ it.day := by
            intro he
            exact (hgate hcg) (by rw [hgs, he])
          omega
        apply ih (acc ++ [(it.day, t)]) _ hmono.2
        · rw [gmDays_append, gmDays_singleton, if_pos hcg]
          rw [List.pairwise_append]
          exact ⟨hacc, List.pairwise_singleton _ _,
            fun x hx y hy => by rw [List.mem_singleton] at hy; rw [hy]; exact hlt x hx⟩
        · intro x hx
          rw [gmDays_append, gmDays_singleton, if_pos hcg, List.mem_append] at hx
          rcases hx with hx | hx
          · exact ⟨it.day, hstate, le_of_lt (hlt x hx)⟩
          · rw [List.mem_singleton] at hx
            exact ⟨it.day, hstate, le_of_eq hx⟩
        · intro g hg it' hit'
          rw [hstate] at hg
          obtain rfl : it.day = g := by simpa using hg
          exact hmono.1 it'.day (List.mem_map_of_mem _ hit')
      · rw [if_neg hcg] at hstate
        apply ih (acc ++ [(it.day, t)]) _ hmono.2
        · rwa [gmDays_append, gmDays_singleton, if_neg hcg, List.append_nil]
        · intro x hx
          rw [gmDays_append, gmDays_singleton, if_neg hcg, List.append_nil] at hx
          obtain ⟨g, hgs, hxg⟩ := hconn x hx
          exact ⟨g, by rw [hstate]; exact hgs, hxg⟩
        · intro g hg it' hit'
          rw [hstate] at hg
          exact hlb g hg it' (List.mem_cons_of_mem _ hit')

/-- Claim C8: a candidate containing the catch-phrase is rejected, with the
state untouched, whenever the gate already records the current UTC day;
rejected attempts never mutate the state and accepted candidates set the
gate exactly when they contain the phrase; after a day rollover a
catch-phrase candidate passing the remaining gates is accepted again and
re-arms the gate; consequently, along any trace with non-decreasing days,
at most one accepted post per UTC day contains the phrase. -/
theorem c8_gm_daily_gate :
    (∀ (cfg : GenConfig) (st : GenState) (a : Attempt) (raw : Text),
      a.raw = some raw → containsGm (cleanupContent raw) = true →
      st.lastGmDate = some cfg.today →
      (genStep cfg st a).outcome = StepOutcome.rejected ∧ (genStep cfg st a).state = st)
    ∧ (∀ (cfg : GenConfig) (st : GenState) (a : Attempt),
        (genStep cfg st a).outcome = StepOutcome.rejected → (genStep cfg st a).state = st)
    ∧ (∀ (cfg : GenConfig) (st : GenState) (a : Attempt) (t : Text),
        (genStep cfg st a).outcome = StepOutcome.accepted t →
        (genStep cfg st a).state.lastGmDate =
          (if containsGm t then some cfg.today else st.lastGmDate))
    ∧ (∀ (cfg : GenConfig) (st : GenState) (a : Attempt) (raw : Text),
        a.raw = some raw → raw.isEmpty = false →
        containsGm (cleanupContent raw) = true → st.lastGmDate ≠ some cfg.today →
        isTooSimilar st.recentTweets (cleanupContent raw) = false →
        (validate cfg.vcfg (cleanupContent raw)).1 = true →
        8 ≤ critiqueTweetScore a.critiqueResp →
        (genStep cfg st a).outcome = StepOutcome.accepted (cleanupContent raw) ∧
          (genStep cfg st a).state.lastGmDate = some cfg.today)
    ∧ (∀ (cfg : GenConfig) (items : List TraceItem),
        (items.map TraceItem.day).Pairwise (· ≤ ·) →
        ∀ d, ((runTrace cfg [] GenState.fresh items).1.filter
          (fun p => containsGm p.2 && decide (p.1 = d))).length ≤ 1) := by
  refine ⟨?_, ?_, ?_, ?_, ?_⟩
  · intro cfg st a raw ha hgm hdate
    unfold genStep
    simp only [ha]
    split_ifs <;> simp_all
  · intro cfg st a h
    exact genStep_rejected_state cfg st a h
  · intro cfg st a t h
    obtain ⟨raw, -, -, -, -, hstate, -⟩ := genStep_accepted_inv cfg st a t h
    exact hstate
  · intro cfg st a raw ha hne hgm hdate hsim hval hscore
    unfold genStep
    simp only [ha]
    split_ifs <;> simp_all
    all_goals omega
  · intro cfg items hmono d
    have hp := runTrace_gm_pairwise cfg items [] GenState.fresh hmono
      (by simp [gmDays]) (by simp [gmDays]) (by intro g hg; simp [GenState.fresh] at hg)
    rw [gm_day_count]
    exact pairwise_lt_filter_eq_le_one _ hp d

theorem c8_gm_daily_gate_witness :
    (gmTrace.map TraceItem.day).Pairwise (· ≤ ·) ∧
      ((runTrace sampleCfg [] GenState.fresh gmTrace).1.filter
        (fun p => containsGm p.2 && decide (p.1 = 0))).length ≤ 1 :=
  ⟨by decide, c8_gm_daily_gate.2.2.2.2 sampleCfg gmTrace (by decide) 0⟩
